import Mathlib

/-!
Shallow embedding of the retrieval subsystem of the Converso backend:
`RetrievalService` (strategy selection, similarity / hybrid / rerank search),
`DocumentStore.search_similar`, and `VectorStoreManager.get_relevant_messages` /
`get_recent_messages`.  The external vector index (ChromaDB) is modelled as an
explicit function argument returning `Except Unit (List _)`: `.error ()` stands
for the backend raising an exception, which the wrappers catch and turn into
an empty list, exactly as the Python `try/except` blocks do.
-/

namespace Converso

/-- A document chunk as the retrieval service sees it: `page_content` plus the
metadata keys it reads (`metadata.get` returning `None` when a key is absent
is modelled by `Option`). -/
structure Doc where
  page_content : String
  document_id : Option String
  chunk_index : Option Int
  total_chunks : Option Int
  deriving DecidableEq, Repr

/-- A conversation-memory document: `page_content` plus the metadata keys read
by `VectorStoreManager`. -/
structure MemoryDoc where
  page_content : String
  conversation_id : Option String
  role : Option String
  timestamp : Option String
  deriving DecidableEq, Repr

/-- The document-chunk backend: `Chroma.similarity_search(query, k)`; `.error`
models the call raising. -/
abbrev SearchBackend := String → Nat → Except Unit (List Doc)

/-- The memory similarity backend: `Chroma.similarity_search(query, k,
filter={conversation_id: c})`. -/
abbrev MemSearchBackend := String → Nat → String → Except Unit (List MemoryDoc)

/-- The memory fetch-all backend: `Chroma.get(where={conversation_id: c})`,
already merged into a list of documents (the Python code zips the returned
`metadatas` and `documents` lists back into `Document`s). -/
abbrev MemGetBackend := String → Except Unit (List MemoryDoc)

/-- Helper for `pySplit`: walk the characters, accumulating the current token
in reverse; whitespace flushes the accumulator, and empty pieces are dropped. -/
def pySplitAux : List Char → List Char → List String
  | [], acc => if acc.isEmpty then [] else [String.mk acc.reverse]
  | c :: cs, acc =>
    if c.isWhitespace then
      if acc.isEmpty then pySplitAux cs [] else String.mk acc.reverse :: pySplitAux cs []
    else pySplitAux cs (c :: acc)

/-- Python `s.split()`: the maximal whitespace-free runs of `s`, in order
(split on whitespace runs, discarding empty pieces). -/
def pySplit (s : String) : List String := pySplitAux s.data []

/-- Python `s.lower()` on the ASCII strings this code handles: lower-case each
character. -/
def pyLower (s : String) : String := String.mk (s.data.map Char.toLower)

/-- Python `needle in hay` on strings: `needle` occurs as a contiguous
substring of `hay` (the empty needle always matches). -/
def containsSub (hay needle : String) : Bool :=
  hay.toList.tails.any (fun t => needle.toList.isPrefixOf t)

/-- Python `set(query.lower().split())`, as a duplicate-free list (the code
only takes the set's size and iterates over it, so order is irrelevant). -/
def querySet (query : String) : List String :=
  (pySplit (pyLower query)).dedup

/-- `sum(1 for keyword in query_keywords if keyword in content_lower)`. -/
def keywordMatches (query_keywords : List String) (content_lower : String) : Nat :=
  (query_keywords.filter (fun keyword => containsSub content_lower keyword)).length

/-- The keyword score computed identically by `_hybrid_search` and
`_reranked_search`: `keyword_matches / len(query_keywords)` if the query has
tokens, else `0`.  Floats are modelled by exact rationals. -/
def keyword_score (query content : String) : ℚ :=
  let query_keywords := querySet query
  let content_lower := pyLower content
  if query_keywords.isEmpty then 0
  else (keywordMatches query_keywords content_lower : ℚ) / (query_keywords.length : ℚ)

/-- `_reranked_search` factor 2: `length_score = 1.0 - abs(content_length -
ideal_length) / ideal_length` with `ideal_length = 200`, then clamped by
`max(0, min(1, length_score))`. -/
def length_score (content : String) : ℚ :=
  let content_length := (pySplit content).length
  let raw : ℚ := 1 - |(content_length : ℚ) - 200| / 200
  max 0 (min 1 raw)

/-- `_reranked_search` factor 3: `position_score = 1.0 - (chunk_index /
max(total_chunks, 1))`, then `max(0.5, position_score)`. -/
def position_score (chunk_index total_chunks : Int) : ℚ :=
  max 0.5 (1 - (chunk_index : ℚ) / ((max total_chunks 1 : Int) : ℚ))

/-- `_reranked_search`'s combined score: `keyword_score * 0.5 + length_score *
0.2 + position_score * 0.3` (the source wraps this sum in a one-element tuple,
which compares exactly as its single component does, so it is modelled as the
plain rational). -/
def final_score (query content : String) (chunk_index total_chunks : Int) : ℚ :=
  keyword_score query content * 0.5 + length_score content * 0.2 +
    position_score chunk_index total_chunks * 0.3

/-- `DocumentStore.search_similar`: calls the backend and returns `[]` if it
raises (`except Exception: return []`). -/
def search_similar (backend : SearchBackend) (query : String) (k : Nat) : List Doc :=
  match backend query k with
  | .ok docs => docs
  | .error _ => []

/-- `RetrievalService._similarity_search`: if `document_ids` is truthy
(non-`None` and non-empty), fetch `k * 2` candidates, keep those whose
`document_id` metadata is in `document_ids` (a missing key reads as `None`,
which is never in a list of strings), and truncate to `k`; otherwise fetch
`k` directly. -/
def similarity_search (backend : SearchBackend) (query : String) (k : Nat)
    (document_ids : Option (List String)) : List Doc :=
  match document_ids with
  | some ids =>
    if ids.isEmpty then search_similar backend query k
    else
      let results := search_similar backend query (k * 2)
      let filtered := results.filter (fun doc =>
        match doc.document_id with
        | some i => ids.contains i
        | none => false)
      filtered.take k
  | none => search_similar backend query k

/-- Python `scored_results.sort(key=lambda x: x[0], reverse=True)`: a stable
descending sort on the score component (equal scores keep incoming order). -/
def sortByScoreDesc {β : Type} (scored : List (ℚ × β)) : List (ℚ × β) :=
  scored.mergeSort (fun a b => decide (b.1 ≤ a.1))

/-- `RetrievalService._hybrid_search`: over-fetch `k * 2` via similarity
search, score each candidate by `keyword_score`, sort descending, take `k`. -/
def hybrid_search (backend : SearchBackend) (query : String) (k : Nat)
    (document_ids : Option (List String)) : List Doc :=
  let similarity_results := similarity_search backend query (k * 2) document_ids
  let scored_results := similarity_results.map (fun doc =>
    (keyword_score query doc.page_content, doc))
  ((sortByScoreDesc scored_results).take k).map Prod.snd

/-- `RetrievalService._reranked_search`: over-fetch `k * 3`, return `[]` on an
empty pool, otherwise score each candidate by `final_score` (metadata defaults:
`chunk_index` `0`, `total_chunks` `1`), sort descending, take `k`. -/
def reranked_search (backend : SearchBackend) (query : String) (k : Nat)
    (document_ids : Option (List String)) : List Doc :=
  let candidates := similarity_search backend query (k * 3) document_ids
  if candidates.isEmpty then []
  else
    let scored_results := candidates.map (fun doc =>
      (final_score query doc.page_content (doc.chunk_index.getD 0)
        (doc.total_chunks.getD 1), doc))
    ((sortByScoreDesc scored_results).take k).map Prod.snd

/-- The fixed indicator list of `_select_retrieval_method`. -/
def complex_indicators : List String :=
  ["how", "why", "what", "explain", "compare", "difference", "and", "or", "but"]

/-- `RetrievalService._select_retrieval_method`: `≤ 5` tokens gives
`"similarity"`; otherwise an indicator substring (checked against the whole
lower-cased query, not token-wise) or `> 10` tokens gives `"rerank"`, else
`"hybrid"`. -/
def select_retrieval_method (query : String) : String :=
  let query_lower := pyLower query
  let query_length := (pySplit query).length
  if query_length ≤ 5 then "similarity"
  else
    let has_complex_indicators :=
      complex_indicators.any (fun indicator => containsSub query_lower indicator)
    if has_complex_indicators || query_length > 10 then "rerank"
    else "hybrid"

/-- `RetrievalService.retrieve`: Python `if not retrieval_method:` treats both
`None` and the empty string as "unset" and auto-selects; then dispatches on the
strategy name, falling back to similarity search for anything unrecognized. -/
def retrieve (backend : SearchBackend) (query : String)
    ( retrieval_method : Option String) (k : Nat)
    (document_ids : Option (List String)) : List Doc :=
  let methodStr := retrieval_method.getD ""
  let m := if methodStr = "" then select_retrieval_method query else methodStr
  if m = "similarity" then similarity_search backend query k document_ids
  else if m = "hybrid" then hybrid_search backend query k document_ids
  else if m = "rerank" then reranked_search backend query k document_ids
  else similarity_search backend query k document_ids

/-- `VectorStoreManager.get_relevant_messages`: conversation-filtered
similarity search, `[]` if the backend raises. -/
def get_relevant_messages (backend : MemSearchBackend) (conversation_id : String)
    (query : String) (k : Nat) : List MemoryDoc :=
  match backend query k conversation_id with
  | .ok docs => docs
  | .error _ => []

/-- The sort key of `get_recent_messages`: `doc.metadata.get("timestamp", "")`. -/
def tsKey (doc : MemoryDoc) : String := doc.timestamp.getD ""

/-- Python `l[s:]` for an arbitrary (possibly negative) integer start `s`. -/
def pySliceFrom {α : Type} (l : List α) (s : Int) : List α :=
  if s < 0 then l.drop (l.length - (-s).toNat) else l.drop s.toNat

/-- `VectorStoreManager.get_recent_messages`: fetch all entries of the
conversation, sort ascending by timestamp (Python's stable sort on the string
key), then return `merged[-limit:] if limit else merged`; `[]` if the backend
raises. -/
def get_recent_messages (backend : MemGetBackend) (conversation_id : String)
    (limit : Int) : List MemoryDoc :=
  match backend conversation_id with
  | .error _ => []
  | .ok merged =>
    let sorted := merged.mergeSort (fun a b => decide (tsKey a ≤ tsKey b))
    if limit ≠ 0 then pySliceFrom sorted (-limit) else sorted

/-- The spec's claimed keyword formula: `|Q ∩ C| / |Q|` over lower-cased
whitespace token sets of query and content, `0` when `Q` is empty. -/
def keywordScoreSpecTokens (query content : String) : ℚ :=
  let q := (pySplit (pyLower query)).toFinset
  let c := (pySplit (pyLower content)).toFinset
  if q.card = 0 then 0 else ((q ∩ c).card : ℚ) / (q.card : ℚ)

/-- The amended keyword formula: `|{t ∈ Q : t occurs as a substring of the
lower-cased content}| / |Q|` over the lower-cased whitespace token set `Q` of
the query, `0` when `Q` is empty. -/
def keywordScoreSubstr (query content : String) : ℚ :=
  let q := (pySplit (pyLower query)).toFinset
  if q.card = 0 then 0
  else ((q.filter (fun t => containsSub (pyLower content) t)).card : ℚ) / (q.card : ℚ)

/-- The last `n` elements of a list (all of it when `n ≥ ` its length). -/
def lastN {α : Type} (n : Nat) (l : List α) : List α :=
  l.drop (l.length - n)

/-- A concrete three-chunk store used to run the retrieval pipeline on closed
inputs. -/
def demoDocs : List Doc :=
  [⟨"zzz", none, none, none⟩, ⟨"qqq", none, none, none⟩, ⟨"why", none, none, none⟩]

/-- A backend over `demoDocs` that returns the first `n` chunks for any query
(the backend's native relevance order is the list order). -/
def demoBackend : SearchBackend := fun _ n => .ok (demoDocs.take n)

/-- Three concrete conversation turns with out-of-order timestamps (the
recency example of the spec). -/
def demoEntries : List MemoryDoc :=
  [⟨"m1", some "c", some "user", some "2024-01-01T10:00"⟩,
   ⟨"m2", some "c", some "assistant", some "2024-01-01T09:00"⟩,
   ⟨"m3", some "c", some "user", some "2024-01-01T11:00"⟩]

/-- A fetch-all backend holding exactly `demoEntries`. -/
def demoGetB : MemGetBackend := fun _ => .ok demoEntries

/-! ### Helper lemmas -/

theorem search_similar_nil {backend : SearchBackend} (h : ∀ q n, backend q n = .error ())
    (q : String) (n : Nat) : search_similar backend q n = [] := by
  simp [search_similar, h]

theorem similarity_search_length_le (backend : SearchBackend) (query : String) (k : Nat)
    (document_ids : Option (List String))
    (hB : ∀ q n, (search_similar backend q n).length ≤ n) :
    (similarity_search backend query k document_ids).length ≤ k := by
  cases document_ids with
  | none => exact hB query k
  | some ids =>
    simp only [similarity_search]
    split
    · exact hB query k
    · exact List.length_take_le k _

theorem hybrid_search_length_le (backend : SearchBackend) (query : String) (k : Nat)
    (document_ids : Option (List String)) :
    (hybrid_search backend query k document_ids).length ≤ k := by
  simp only [hybrid_search, List.length_map]
  exact List.length_take_le k _

theorem reranked_search_length_le (backend : SearchBackend) (query : String) (k : Nat)
    (document_ids : Option (List String)) :
    (reranked_search backend query k document_ids).length ≤ k := by
  simp only [reranked_search]
  split
  · exact Nat.zero_le k
  · simp only [List.length_map]
    exact List.length_take_le k _

/-! ### Claim theorems -/

/-- C4: every query with between 6 and 10 whitespace tokens whose lower-cased
text contains none of the indicator substrings is routed to the `"hybrid"`
strategy by `select_retrieval_method`. -/
theorem select_hybrid_of_medium_plain_query (query : String)
    (h6 : 6 ≤ (pySplit query).length) (h10 : (pySplit query).length ≤ 10)
    (hind : ∀ indicator ∈ complex_indicators,
      containsSub (pyLower query) indicator = false) :
    select_retrieval_method query = "hybrid" := by
  have hany : complex_indicators.any (fun indicator =>
      containsSub (pyLower query) indicator) = false := by
    rw [List.any_eq_false]
    intro i hi
    simp [hind i hi]
  simp only [select_retrieval_method, hany]
  rw [if_neg (by omega)]
  simp only [Bool.false_or]
  rw [if_neg (by simpa using by omega)]

/-- C4 witness: a concrete six-token query with no indicator substrings is
routed to `"hybrid"`. -/
theorem select_hybrid_of_medium_plain_query_witness :
    select_retrieval_method "p q r s t u" = "hybrid" :=
  select_hybrid_of_medium_plain_query "p q r s t u" (by decide) (by decide)
    (by decide)

/-- C6: under the hypothesis that the backend wrapper returns at most the
number of candidates requested, `retrieve` returns at most `k` chunks for
every query, strategy argument and document-id restriction. -/
theorem retrieve_length_le (backend : SearchBackend) (query : String)
    ( retrieval_method : Option String) (k : Nat)
    (document_ids : Option (List String)) (_hk : 0 < k)
    (hB : ∀ q n, (search_similar backend q n).length ≤ n) :
    (retrieve backend query retrieval_method k document_ids).length ≤ k := by
  simp only [retrieve]
  repeat' split
  all_goals
    first
      | exact similarity_search_length_le backend query k document_ids hB
      | exact hybrid_search_length_le backend query k document_ids
      | exact reranked_search_length_le backend query k document_ids

/-- C6 witness: the length bound at a concrete backend, query and `k`. -/
theorem retrieve_length_le_witness :
    (retrieve demoBackend "tell me a fact" none 2 none).length ≤ 2 :=
  retrieve_length_le demoBackend "tell me a fact" none 2 none (by decide)
    (fun q n => by
      simp only [search_similar, demoBackend]
      exact le_trans (List.length_take_le n demoDocs) (le_refl n))

/-- C7: with a non-empty `document_ids`, the similarity strategy fetches
`2 * k` candidates, keeps exactly those whose `document_id` is in the set in
backend order, truncates to `k`, and every returned chunk's `document_id` is
in the set. -/
theorem similarity_search_document_ids (backend : SearchBackend) (query : String)
    (k : Nat) (ids : List String) (h : ids ≠ []) :
    similarity_search backend query k (some ids) =
      ((search_similar backend query (k * 2)).filter (fun doc =>
        match doc.document_id with
        | some i => ids.contains i
        | none => false)).take k ∧
    ∀ doc ∈ similarity_search backend query k (some ids),
      ∃ i, doc.document_id = some i ∧ i ∈ ids := by
  have hne : ¬ (ids.isEmpty = true) := by simpa [List.isEmpty_iff] using h
  constructor
  · simp only [similarity_search]
    rw [if_neg hne]
  · intro doc hdoc
    simp only [similarity_search] at hdoc
    rw [if_neg hne] at hdoc
    have hmem := List.mem_filter.mp (List.mem_of_mem_take hdoc)
    cases hdi : doc.document_id with
    | none => rw [hdi] at hmem; simp at hmem
    | some i =>
      rw [hdi] at hmem
      exact ⟨i, rfl, by simpa using hmem.2⟩

/-- C7 witness: a concrete run with a restricting id set. -/
theorem similarity_search_document_ids_witness :
    (similarity_search demoBackend "q" 1 (some ["doc1"]) =
      ((search_similar demoBackend "q" (1 * 2)).filter (fun doc =>
        match doc.document_id with
        | some i => ["doc1"].contains i
        | none => false)).take 1 ∧
    ∀ doc ∈ similarity_search demoBackend "q" 1 (some ["doc1"]),
      ∃ i, doc.document_id = some i ∧ i ∈ ["doc1"]) :=
  similarity_search_document_ids demoBackend "q" 1 ["doc1"] (by decide)

/-- C9 (amended): every non-empty strategy name other than the three
recognized ones makes `retrieve` behave exactly like the `"similarity"`
strategy on the same arguments. -/
theorem retrieve_unknown_nonempty_strategy (backend : SearchBackend)
    (query : String) (k : Nat) (document_ids : Option (List String)) (m : String)
    (h0 : m ≠ "") (h1 : m ≠ "similarity") (h2 : m ≠ "hybrid") (h3 : m ≠ "rerank") :
    retrieve backend query (some m) k document_ids =
      retrieve backend query (some "similarity") k document_ids := by
  have hL : retrieve backend query (some m) k document_ids =
      similarity_search backend query k document_ids := by
    simp only [retrieve, Option.getD_some]
    rw [if_neg h0, if_neg h1, if_neg h2, if_neg h3]
  have hR : retrieve backend query (some "similarity") k document_ids =
      similarity_search backend query k document_ids := by
    simp [retrieve]
  rw [hL, hR]

/-- C9 witness: a concrete unknown strategy name behaves like similarity. -/
theorem retrieve_unknown_nonempty_strategy_witness :
    retrieve demoBackend "q" (some "keyword") 2 none =
      retrieve demoBackend "q" (some "similarity") 2 none :=
  retrieve_unknown_nonempty_strategy demoBackend "q" 2 none "keyword"
    (by decide) (by decide) (by decide) (by decide)

/-- C2 (amended): for a document of at least two chunks, the last chunk
(`chunk_index = total_chunks - 1`) gets `position_score` exactly `0.5`. -/
theorem position_score_last_chunk (chunk_index total_chunks : Int)
    (hlast : chunk_index = total_chunks - 1) (h2 : 2 ≤ total_chunks) :
    position_score chunk_index total_chunks = 0.5 := by
  subst hlast
  unfold position_score
  have hmax : max total_chunks 1 = total_chunks := max_eq_left (by omega)
  rw [hmax]
  have htc : (0 : ℚ) < (total_chunks : ℚ) := by exact_mod_cast lt_of_lt_of_le (by norm_num) h2
  have hrw : 1 - ((total_chunks - 1 : Int) : ℚ) / (total_chunks : ℚ) =
      1 / (total_chunks : ℚ) := by
    field_simp
  rw [hrw]
  refine max_eq_left ?_
  rw [div_le_iff₀ htc]
  have : (2 : ℚ) ≤ (total_chunks : ℚ) := by exact_mod_cast h2
  nlinarith

/-- C2 counterexample: in a single-chunk document the last chunk satisfies
`chunk_index = total_chunks - 1` but its `position_score` is `1`, not `0.5`. -/
theorem position_score_last_chunk_counterexample :
    (0 : Int) = 1 - 1 ∧ position_score 0 1 = 1 ∧ (1 : ℚ) ≠ 0.5 := by
  refine ⟨by norm_num, ?_, by norm_num⟩
  unfold position_score
  rw [max_self]
  norm_num

/-- C2 witness: the amended statement at a three-chunk document. -/
theorem position_score_last_chunk_witness :
    position_score 2 3 = 0.5 :=
  position_score_last_chunk 2 3 (by norm_num) (by norm_num)

theorem keyword_score_bounds (query content : String) :
    0 ≤ keyword_score query content ∧ keyword_score query content ≤ 1 := by
  simp only [keyword_score]
  split
  · norm_num
  · rename_i hne
    have hlen : 0 < (querySet query).length := by
      rcases List.isEmpty_eq_false.mp (by simpa using hne) with h
      exact List.length_pos.mpr h
    have hmatches : keywordMatches (querySet query) (pyLower content) ≤
        (querySet query).length := List.length_filter_le _ _
    have hlenq : (0 : ℚ) < ((querySet query).length : ℚ) := by exact_mod_cast hlen
    constructor
    · positivity
    · rw [div_le_one hlenq]
      exact_mod_cast hmatches

theorem length_score_bounds (content : String) :
    0 ≤ length_score content ∧ length_score content ≤ 1 := by
  unfold length_score
  constructor
  · exact le_max_left 0 _
  · exact max_le (by norm_num) (min_le_left 1 _)

theorem position_score_bounds (chunk_index total_chunks : Int)
    (h0 : 0 ≤ chunk_index) (h1 : chunk_index < total_chunks) :
    0 ≤ position_score chunk_index total_chunks ∧
      position_score chunk_index total_chunks ≤ 1 := by
  unfold position_score
  have hmax : max total_chunks 1 = total_chunks := max_eq_left (by omega)
  rw [hmax]
  have htc : (0 : ℚ) < (total_chunks : ℚ) := by exact_mod_cast lt_of_le_of_lt h0 h1
  have hdiv : 0 ≤ (chunk_index : ℚ) / (total_chunks : ℚ) :=
    div_nonneg (by exact_mod_cast h0) (le_of_lt htc)
  constructor
  · exact le_trans (by norm_num) (le_max_left 0.5 _)
  · exact max_le (by norm_num) (by linarith)

/-- C8: under the metadata invariant `0 ≤ chunk_index < total_chunks`, each of
the three rerank factors and the weighted `final_score` lie in `[0, 1]`. -/
theorem rerank_factors_bounded (query content : String)
    (chunk_index total_chunks : Int)
    (h0 : 0 ≤ chunk_index) (h1 : chunk_index < total_chunks) :
    (0 ≤ keyword_score query content ∧ keyword_score query content ≤ 1) ∧
    (0 ≤ length_score content ∧ length_score content ≤ 1) ∧
    (0 ≤ position_score chunk_index total_chunks ∧
      position_score chunk_index total_chunks ≤ 1) ∧
    (0 ≤ final_score query content chunk_index total_chunks ∧
      final_score query content chunk_index total_chunks ≤ 1) := by
  obtain ⟨k0, k1⟩ := keyword_score_bounds query content
  obtain ⟨l0, l1⟩ := length_score_bounds content
  obtain ⟨p0, p1⟩ := position_score_bounds chunk_index total_chunks h0 h1
  refine ⟨⟨k0, k1⟩, ⟨l0, l1⟩, ⟨p0, p1⟩, ?_, ?_⟩
  · unfold final_score
    nlinarith
  · unfold final_score
    nlinarith

/-- C8 witness: the bounds at a concrete chunk. -/
theorem rerank_factors_bounded_witness :
    (0 ≤ keyword_score "cat dog" "the cat sat" ∧
      keyword_score "cat dog" "the cat sat" ≤ 1) ∧
    (0 ≤ length_score "the cat sat" ∧ length_score "the cat sat" ≤ 1) ∧
    (0 ≤ position_score 0 2 ∧ position_score 0 2 ≤ 1) ∧
    (0 ≤ final_score "cat dog" "the cat sat" 0 2 ∧
      final_score "cat dog" "the cat sat" 0 2 ≤ 1) :=
  rerank_factors_bounded "cat dog" "the cat sat" 0 2 (by norm_num) (by norm_num)

/-- C1 (amended): the keyword score computed by the hybrid and rerank
strategies equals `|{t ∈ Q : t is a substring of the lower-cased content}| /
|Q|` over the lower-cased whitespace token set `Q` of the query (`0` when `Q`
is empty) — substring occurrence, not token-set intersection. -/
theorem keyword_score_eq_substr (query content : String) :
    keyword_score query content = keywordScoreSubstr query content := by
  have hfin : (pySplit (pyLower query)).toFinset = (querySet query).toFinset := by
    ext x
    simp [querySet, List.mem_dedup]
  have hcard : (pySplit (pyLower query)).toFinset.card = (querySet query).length :=
    List.card_toFinset _
  have hfilter : ((pySplit (pyLower query)).toFinset.filter
      (fun t => containsSub (pyLower content) t)).card =
      keywordMatches (querySet query) (pyLower content) := by
    rw [hfin, ← List.toFinset_filter, List.card_toFinset,
      List.Nodup.dedup (List.Nodup.filter _
        (show (querySet query).Nodup from List.nodup_dedup _))]
    rfl
  simp only [keyword_score, keywordScoreSubstr]
  by_cases hempty : (querySet query).isEmpty = true
  · have h0 : (pySplit (pyLower query)).toFinset.card = 0 := by
      rw [hcard]
      simpa using congrArg List.length (List.isEmpty_iff.mp hempty)
    rw [if_pos hempty, if_pos h0]
  · have h0 : ¬ (pySplit (pyLower query)).toFinset.card = 0 := by
      rw [hcard]
      intro hc
      exact hempty (by simp [List.isEmpty_iff, List.length_eq_zero.mp hc])
    rw [if_neg hempty, if_neg h0, hfilter, hcard]

/-- C1 counterexample: for query `"cat"` and content `"concatenate"` the code
scores `1` (the token `cat` occurs inside the word `concatenate`) while the
claimed token-set intersection formula gives `0`. -/
theorem keyword_score_counterexample :
    keyword_score "cat" "concatenate" = 1 ∧
    keywordScoreSpecTokens "cat" "concatenate" = 0 ∧ (1 : ℚ) ≠ 0 := by
  refine ⟨?_, ?_, by norm_num⟩
  · have h1 : querySet "cat" = ["cat"] := by decide
    have h2 : keywordMatches ["cat"] (pyLower "concatenate") = 1 := by decide
    simp [keyword_score, h1, h2]
  · have h3 : (pySplit (pyLower "cat")).toFinset = {"cat"} := by decide
    have h4 : (pySplit (pyLower "concatenate")).toFinset = {"concatenate"} := by decide
    have h5 : ({"cat"} ∩ {"concatenate"} : Finset String) = ∅ := by decide
    simp [keywordScoreSpecTokens, h3, h4, h5]

/-- C3: when every backend call raises, `retrieve` (under every strategy
argument), `get_relevant_messages` and `get_recent_messages` all return the
empty sequence (the exception is caught at the fetch boundary and never
escapes). -/
theorem degraded_backend_all_empty
    (backend : SearchBackend) (memB : MemSearchBackend) (getB : MemGetBackend)
    (hb : ∀ q n, backend q n = .error ())
    (hm : ∀ q n c, memB q n c = .error ())
    (hg : ∀ c, getB c = .error ())
    (query : String) (m : Option String) (k : Nat)
    (document_ids : Option (List String)) (conversation_id : String)
    (limit : Int) :
    retrieve backend query m k document_ids = [] ∧
    get_relevant_messages memB conversation_id query k = [] ∧
    get_recent_messages getB conversation_id limit = [] := by
  have hss : ∀ q n, search_similar backend q n = [] := search_similar_nil hb
  have hsim : ∀ q n ids, similarity_search backend q n ids = [] := by
    intro q n ids
    cases ids with
    | none => exact hss q n
    | some l =>
      simp only [similarity_search]
      split
      · exact hss q n
      · simp [hss]
  have hhyb : ∀ q n ids, hybrid_search backend q n ids = [] := by
    intro q n ids
    simp [hybrid_search, hsim, sortByScoreDesc]
  have hrer : ∀ q n ids, reranked_search backend q n ids = [] := by
    intro q n ids
    simp [reranked_search, hsim]
  refine ⟨?_, ?_, ?_⟩
  · simp only [retrieve]
    repeat' split
    all_goals
      first
        | exact hsim query k document_ids
        | exact hhyb query k document_ids
        | exact hrer query k document_ids
  · simp [get_relevant_messages, hm]
  · simp [get_recent_messages, hg]

/-- C3 witness: concrete always-raising backends yield empty results. -/
theorem degraded_backend_all_empty_witness :
    retrieve (fun _ _ => .error ()) "q" none 4 none = [] ∧
    get_relevant_messages (fun _ _ _ => .error ()) "c" "q" 4 = [] ∧
    get_recent_messages (fun _ => .error ()) "c" 10 = [] :=
  degraded_backend_all_empty (fun _ _ => .error ()) (fun _ _ _ => .error ())
    (fun _ => .error ()) (fun _ _ => rfl) (fun _ _ _ => rfl) (fun _ => rfl)
    "q" none 4 none "c" 10

/-- C5: on a successful fetch, `get_recent_messages` returns the last `limit`
entries of the timestamp-ascending sort for a positive `limit`, all of them
for `limit = 0`, and the result is always in ascending timestamp order. -/
theorem get_recent_messages_spec (getB : MemGetBackend) (conversation_id : String)
    (entries : List MemoryDoc) (limit : Int)
    (hfetch : getB conversation_id = .ok entries) :
    (0 < limit → get_recent_messages getB conversation_id limit =
      lastN limit.toNat (entries.mergeSort (fun a b => decide (tsKey a ≤ tsKey b)))) ∧
    (limit = 0 → get_recent_messages getB conversation_id limit =
      entries.mergeSort (fun a b => decide (tsKey a ≤ tsKey b))) ∧
    List.Pairwise (fun a b => tsKey a ≤ tsKey b)
      (get_recent_messages getB conversation_id limit) := by
  have hsorted : List.Pairwise (fun a b : MemoryDoc => tsKey a ≤ tsKey b)
      (entries.mergeSort (fun a b => decide (tsKey a ≤ tsKey b))) := by
    have h := @List.sorted_mergeSort MemoryDoc
      (fun a b : MemoryDoc => decide (tsKey a ≤ tsKey b))
      (fun a b c hab hbc => by
        simp only [decide_eq_true_eq] at hab hbc ⊢
        exact le_trans hab hbc)
      (fun a b => by
        simp only [Bool.or_eq_true, decide_eq_true_eq]
        exact le_total _ _)
      entries
    exact h.imp (fun hab => of_decide_eq_true hab)
  refine ⟨?_, ?_, ?_⟩
  · intro hpos
    simp only [get_recent_messages, hfetch]
    rw [if_pos (by omega : limit ≠ 0)]
    simp only [pySliceFrom]
    rw [if_pos (by omega : -limit < 0), neg_neg]
    rfl
  · intro h0
    simp [get_recent_messages, hfetch, h0]
  · simp only [get_recent_messages, hfetch]
    split
    · simp only [pySliceFrom]
      split
      · exact List.Pairwise.sublist (List.drop_sublist _ _) hsorted
      · exact List.Pairwise.sublist (List.drop_sublist _ _) hsorted
    · exact hsorted

/-- C5 witness: the recency contract on the spec's three-entry example with
`limit = 2`. -/
theorem get_recent_messages_spec_witness :
    (0 < (2 : Int) → get_recent_messages demoGetB "c" 2 =
      lastN (2 : Int).toNat
        (demoEntries.mergeSort (fun a b => decide (tsKey a ≤ tsKey b)))) ∧
    ((2 : Int) = 0 → get_recent_messages demoGetB "c" 2 =
      demoEntries.mergeSort (fun a b => decide (tsKey a ≤ tsKey b))) ∧
    List.Pairwise (fun a b => tsKey a ≤ tsKey b)
      (get_recent_messages demoGetB "c" 2) :=
  get_recent_messages_spec demoGetB "c" demoEntries 2 rfl

/-- C10: for a negative `limit`, `get_recent_messages` drops the `|limit|`
oldest entries and returns all the rest, so the result length is
`total - |limit|` (truncated at zero), which is not bounded by `limit`. -/
theorem get_recent_messages_negative_limit (getB : MemGetBackend)
    (conversation_id : String) (entries : List MemoryDoc) (limit : Int)
    (hfetch : getB conversation_id = .ok entries) (hneg : limit < 0) :
    get_recent_messages getB conversation_id limit =
      (entries.mergeSort (fun a b => decide (tsKey a ≤ tsKey b))).drop
        (-limit).toNat ∧
    (get_recent_messages getB conversation_id limit).length =
      entries.length - (-limit).toNat := by
  have hres : get_recent_messages getB conversation_id limit =
      (entries.mergeSort (fun a b => decide (tsKey a ≤ tsKey b))).drop
        (-limit).toNat := by
    simp only [get_recent_messages, hfetch]
    rw [if_pos (by omega : limit ≠ 0)]
    simp only [pySliceFrom]
    rw [if_neg (by omega : ¬ (-limit < 0))]
  refine ⟨hres, ?_⟩
  rw [hres, List.length_drop, List.length_mergeSort]

/-- C9 counterexample: the empty string is a strategy name outside the three
recognized values, but Python's falsiness check makes `retrieve` auto-select a
strategy for it instead of falling back to similarity: on a concrete store and
query it returns a different result than the `"similarity"` strategy. -/
theorem retrieve_empty_strategy_counterexample :
    ("" ≠ "similarity" ∧ "" ≠ "hybrid" ∧ "" ≠ "rerank") ∧
    retrieve demoBackend "why a b c d e" (some "") 1 none ≠
      retrieve demoBackend "why a b c d e" (some "similarity") 1 none := by
  refine ⟨by decide, ?_⟩
  have hq : querySet "why a b c d e" = ["why", "a", "b", "c", "d", "e"] := by decide
  have hsim : retrieve demoBackend "why a b c d e" (some "similarity") 1 none =
      [⟨"zzz", none, none, none⟩] := by decide
  have k1 : keyword_score "why a b c d e" "zzz" = 0 := by
    have hm : keywordMatches ["why", "a", "b", "c", "d", "e"] (pyLower "zzz") = 0 := by decide
    simp [keyword_score, hq, hm]
  have k2 : keyword_score "why a b c d e" "qqq" = 0 := by
    have hm : keywordMatches ["why", "a", "b", "c", "d", "e"] (pyLower "qqq") = 0 := by decide
    simp [keyword_score, hq, hm]
  have k3 : keyword_score "why a b c d e" "why" = 1/6 := by
    have hm : keywordMatches ["why", "a", "b", "c", "d", "e"] (pyLower "why") = 1 := by decide
    simp [keyword_score, hq, hm]
  have labs : |(1 : ℚ) - 200| = 199 := by
    rw [abs_of_nonpos (by norm_num)]
    norm_num
  have l1 : ∀ s : String, pySplit s = [s] → length_score s = 1/200 := by
    intro s hs
    have hlen : (((pySplit s).length : Nat) : ℚ) = 1 := by rw [hs]; norm_num
    simp only [length_score]
    rw [hlen, labs]
    rw [show (1 : ℚ) - 199/200 = 1/200 from by norm_num]
    rw [min_eq_right (by norm_num : (1/200 : ℚ) ≤ 1)]
    rw [max_eq_right (by norm_num : (0 : ℚ) ≤ 1/200)]
  have p1 : position_score 0 1 = 1 := by
    unfold position_score
    rw [max_self]
    norm_num
  have f1 : final_score "why a b c d e" "zzz" 0 1 = 301/1000 := by
    unfold final_score
    rw [k1, l1 "zzz" (by decide), p1]
    norm_num
  have f2 : final_score "why a b c d e" "qqq" 0 1 = 301/1000 := by
    unfold final_score
    rw [k2, l1 "qqq" (by decide), p1]
    norm_num
  have f3 : final_score "why a b c d e" "why" 0 1 = 1153/3000 := by
    unfold final_score
    rw [k3, l1 "why" (by decide), p1]
    norm_num
  have hres : retrieve demoBackend "why a b c d e" (some "") 1 none =
      [⟨"why", none, none, none⟩] := by
    have hsel : select_retrieval_method "why a b c d e" = "rerank" := by decide
    have hdisp : retrieve demoBackend "why a b c d e" (some "") 1 none =
        reranked_search demoBackend "why a b c d e" 1 none := by
      simp [retrieve, hsel]
    rw [hdisp]
    have hpool : similarity_search demoBackend "why a b c d e" (1 * 3) none =
        demoDocs := by decide
    simp only [reranked_search, hpool]
    simp only [demoDocs, List.isEmpty_cons, List.map_cons, List.map_nil,
      Option.getD_none]
    rw [if_neg (by decide)]
    simp only [f1, f2, f3]
    norm_num [sortByScoreDesc, List.mergeSort, List.splitInTwo, List.merge,
      List.splitAt, List.splitAt.go]
  rw [hres, hsim]
  decide

/-- C10 witness: with three stored entries and `limit = -1` the call returns
the two newest entries — more than `|limit| = 1`. -/
theorem get_recent_messages_negative_limit_witness :
    (get_recent_messages demoGetB "c" (-1) =
      (demoEntries.mergeSort (fun a b => decide (tsKey a ≤ tsKey b))).drop
        (-(-1 : Int)).toNat ∧
    (get_recent_messages demoGetB "c" (-1)).length =
      demoEntries.length - (-(-1 : Int)).toNat) :=
  get_recent_messages_negative_limit demoGetB "c" demoEntries (-1) rfl
    (by norm_num)

end Converso
